import Mathlib

/-!
Verification of the core logic of `auto_checkin.py` (repository iosxx/zdduihuan).

The Python source is shallowly embedded below:
* the response interpreter of `luckydraw_once` (regex scans over the raw body,
  brace-fragment extraction, JSON-fragment fallback) works on `List Char`;
* the status-code policy of `luckydraw_once` is `luckydraw_classify`;
* `mask_code`, the daily-state store (`load_state` / `get_today_counts` /
  `bump_today_count`) and the attempt loop of `main` are embedded with the
  network modelled as an oracle supplying each attempt's draw/top-up outcome.

Python stdlib calls (`json.loads`, `html.unescape`) are external to the
repository; the interpreter is parameterised over them, and `pyLoadsObj`
below is a partial executable model of `json.loads` used to instantiate the
parameter in concrete (closed) theorems.
-/

namespace AutoCheckin

/-- The character `{` (written via its code point to keep string literals clean). -/
def lbrace : Char := Char.ofNat 123

/-- The character `}`. -/
def rbrace : Char := Char.ofNat 125

/-- Characters of the Python regex class `[0-9a-fA-F]` used in the
`redemptionCode` pattern of `luckydraw_once` (line 234). -/
def isHexChar (c : Char) : Bool :=
  ('0' ≤ c && c ≤ '9') || ('a' ≤ c && c ≤ 'f') || ('A' ≤ c && c ≤ 'F')

/-- ASCII whitespace matched by the regex class `\s` (`[ \t\n\r\f\v]`). -/
def isPySpace (c : Char) : Bool :=
  c = ' ' || c = '\t' || c = '\n' || c = '\r' || c = Char.ofNat 11 || c = Char.ofNat 12

/-- Greedy `\s*`: drop leading whitespace.  In both patterns below the
character required after `\s*` (`:` or `"`) is not itself whitespace, so the
greedy maximal munch is exact (no backtracking is ever needed). -/
def dropWs (s : List Char) : List Char := s.dropWhile isPySpace

/-- The literal part `"redemptionCode"` (quotes included) of the regex
`"redemptionCode"\s*:\s*"([0-9a-fA-F]{16,})"` at line 234. -/
def keyRC : List Char := "\"redemptionCode\"".data

/-- Require the next input character to be `c`, returning the rest. -/
def expectChar (c : Char) : List Char → Option (List Char)
  | [] => none
  | a :: s => if a = c then some s else none

/-- Attempt to match the pattern `"redemptionCode"\s*:\s*"([0-9a-fA-F]{16,})"`
at the start of `s`, returning the captured hex group.  The greedy
`[0-9a-fA-F]{16,}` is the maximal hex run: shortening it in backtracking
leaves a hex character (never `"`) as the next input character, so the match
succeeds exactly when the maximal run of length ≥ 16 is followed by `"`. -/
def matchCodeAt (s : List Char) : Option (List Char) :=
  if keyRC.isPrefixOf s then
    match expectChar ':' (dropWs (s.drop keyRC.length)) with
    | none => none
    | some s2 =>
      match expectChar '"' (dropWs s2) with
      | none => none
      | some s3 =>
        match expectChar '"' (s3.dropWhile isHexChar) with
        | none => none
        | some _ =>
          if 16 ≤ (s3.takeWhile isHexChar).length then some (s3.takeWhile isHexChar)
          else none
  else none

/-- `re.search` for the `redemptionCode` pattern: try every start position
from the left, return the first successful match's group (line 234). -/
def findRedemptionCode : List Char → Option (List Char)
  | [] => none
  | c :: s =>
    match matchCodeAt (c :: s) with
    | some h => some h
    | none => findRedemptionCode s

/-- The literal part `"message"` of the regex `"message"\s*:\s*"(.*?)"` at
line 240. -/
def keyMsg : List Char := "\"message\"".data

/-- The lazy group `(.*?)` followed by `"`: collect characters up to the
first `"`.  Python `.` (without `re.S`) does not match a newline, so the
match fails if a newline or the end of input is reached first. -/
def takeToQuote : List Char → Option (List Char)
  | [] => none
  | c :: s =>
    if c = '"' then some []
    else if c = '\n' then none
    else (takeToQuote s).map (fun g => c :: g)

/-- Attempt to match `"message"\s*:\s*"(.*?)"` at the start of `s`. -/
def matchMsgAt (s : List Char) : Option (List Char) :=
  if keyMsg.isPrefixOf s then
    match expectChar ':' (dropWs (s.drop keyMsg.length)) with
    | none => none
    | some s2 =>
      match expectChar '"' (dropWs s2) with
      | none => none
      | some s3 => takeToQuote s3
  else none

/-- `re.search` for the `message` pattern: leftmost successful match wins
(line 240).  A failed attempt at one position moves on to the next. -/
def findMessage : List Char → Option (List Char)
  | [] => none
  | c :: s =>
    match matchMsgAt (c :: s) with
    | some g => some g
    | none => findMessage s

/-- Split off everything before the first occurrence of `c`, also returning
the remainder after that occurrence. -/
def splitAtFirst (c : Char) : List Char → Option (List Char × List Char)
  | [] => none
  | a :: s =>
    if a = c then some ([], s)
    else (splitAtFirst c s).map (fun p => (a :: p.1, p.2))

theorem splitAtFirst_length {c : Char} :
    ∀ {s b r : List Char}, splitAtFirst c s = some (b, r) → r.length ≤ s.length := by
  intro s
  induction s with
  | nil => intro b r h; simp [splitAtFirst] at h
  | cons a t ih =>
    intro b r h
    unfold splitAtFirst at h
    by_cases hac : a = c
    · rw [if_pos hac] at h
      injection h with h
      injection h with h1 h2
      subst h2
      simp
    · rw [if_neg hac] at h
      cases hsp : splitAtFirst c t with
      | none => rw [hsp] at h; simp at h
      | some p =>
        rw [hsp] at h
        cases p with
        | mk b1 r1 =>
          simp at h
          obtain ⟨h1, h2⟩ := h
          subst h2
          have := ih hsp
          simp only [List.length_cons]
          omega

/-- Fueled scanner behind `fragments`; by `splitAtFirst_length` the
remainder after a fragment is shorter than the input, so fuel equal to the
input length never runs out. -/
def fragmentsAux : Nat → List Char → List (List Char)
  | 0, _ => []
  | _, [] => []
  | fuel + 1, c :: s =>
    if c = lbrace then
      match splitAtFirst rbrace s with
      | some (b, rest) => (lbrace :: (b ++ [rbrace])) :: fragmentsAux fuel rest
      | none => []
    else fragmentsAux fuel s

/-- `re.findall(r'\{.*?\}', text, flags=re.S)` (line 246): non-overlapping
lazy matches, each running from a `{` to the very next `}` (newlines
allowed); scanning resumes after the fragment's closing brace. -/
def fragments (s : List Char) : List (List Char) := fragmentsAux s.length s

/-- JSON values as they occur in the flat fragments the interpreter consumes. -/
inductive JVal where
  | str (s : List Char)
  | num (n : Int)
  | bool (b : Bool)
  | null
deriving DecidableEq

/-- A parsed JSON object (`dict`), as a key/value association list. -/
def Frag : Type := List (List Char × JVal)

instance : DecidableEq Frag := by
  unfold Frag
  infer_instance

/-- `dict.get`: first binding of the key (the modelled inputs carry no
duplicate keys). -/
def fragGet (f : Frag) (k : List Char) : Option JVal :=
  (f.find? (fun p => p.1 == k)).map (fun p => p.2)

/-- Lines 247-252: iterate the brace fragments from the last to the first,
keeping the first one the JSON parser accepts; `[]` stands for the initial
`parsed = {}` kept when every fragment fails (`json.loads("\x7b\x7d")`
also yields `{}`, indistinguishable from the initial value, as in Python). -/
def firstParse (loads : List Char → Option Frag) : List (List Char) → Frag
  | [] => []
  | p :: rest =>
    match loads p with
    | some f => f
    | none => firstParse loads rest

/-- The fallback message `f"HTTP {r.status_code}"` of line 261. -/
def statusMsg (status : Nat) : List Char := "HTTP ".data ++ (toString status).data

/-- Python truthiness of the `redemption` variable (`None` and `""` are falsy). -/
def truthyOpt : Option (List Char) → Bool
  | none => false
  | some s => !s.isEmpty

/-- Key `redemptionCode` (no quotes), as looked up in the parsed fragment. -/
def keyRCname : List Char := "redemptionCode".data

/-- Key `message` (no quotes). -/
def keyMsgName : List Char := "message".data

/-- The response interpreter of `luckydraw_once`, lines 229-263: regex scan
for the code (step 1), regex scan for the message (step 3, HTML-unescaped),
last-to-first fragment parse (step 4), fragment fallbacks for code and
message (steps 5-6), HTTP-status fallback message (step 7).

`loads` abstracts the Python stdlib `json.loads` (returning `none` when it
raises) and `unescape` abstracts `html.unescape`.  Non-string fragment
values for `redemptionCode` / `message` are not modelled (the fragments the
endpoint emits carry string values there). -/
def interpret (loads : List Char → Option Frag) (unescape : List Char → List Char)
    (text : List Char) (status : Nat) :
    Option (List Char) × List Char × Frag :=
  let redemption0 := findRedemptionCode text
  let msg0 : List Char :=
    match findMessage text with
    | some g => unescape g
    | none => []
  let parsed := firstParse loads (fragments text).reverse
  let redemption1 :=
    if !truthyOpt redemption0 && !parsed.isEmpty then
      match fragGet parsed keyRCname with
      | some (JVal.str s) => some s
      | _ => none
    else redemption0
  let msg1 :=
    if msg0.isEmpty && !parsed.isEmpty then
      match fragGet parsed keyMsgName with
      | some (JVal.str s) => s
      | _ => []
    else msg0
  let msg2 := if msg1.isEmpty then statusMsg status else msg1
  (redemption1, msg2, parsed)

/-- `mask_code` (lines 70-73): codes that are empty or shorter than 8
characters render as the fixed placeholder `****`; otherwise the first 4 and
last 4 characters sandwich the fixed mask `****`. -/
def mask_code (code : String) : String :=
  if code = "" || code.length < 8 then "****"
  else String.mk (code.data.take 4 ++ "****".data ++ code.data.drop (code.data.length - 4))

/-- JSON whitespace (`json.loads` allows spaces, tabs, newlines, carriage
returns between tokens). -/
def isJsonWs (c : Char) : Bool :=
  c = ' ' || c = '\t' || c = '\n' || c = '\r'

/-- Drop JSON whitespace. -/
def skipWsJ (s : List Char) : List Char := s.dropWhile isJsonWs

/-- Body of a JSON string literal after the opening quote: plain characters
up to the closing quote.  Escapes and raw control characters are not
modelled (parsing fails there), keeping this a safe under-approximation of
`json.loads`. -/
def jstrBody : List Char → Option (List Char × List Char)
  | [] => none
  | c :: s =>
    if c = '"' then some ([], s)
    else if c = '\\' || c.val < 32 then none
    else (jstrBody s).map (fun p => (c :: p.1, p.2))

/-- A JSON string literal (opening quote expected at the head). -/
def parseJString : List Char → Option (List Char × List Char)
  | '"' :: s => jstrBody s
  | _ => none

/-- Digits of a JSON integer. -/
def parseDigits (s : List Char) : List Char × List Char :=
  (s.takeWhile Char.isDigit, s.dropWhile Char.isDigit)

/-- A JSON integer literal: optional minus sign, `0` or a nonzero-led digit
run, not followed by a fraction or exponent (floats are not modelled, so
parsing fails on them rather than approximating). -/
def parseJInt (s : List Char) : Option (Int × List Char) :=
  let (neg, s1) : Bool × List Char :=
    match s with
    | '-' :: t => (true, t)
    | _ => (false, s)
  match parseDigits s1 with
  | ([], _) => none
  | (d :: ds, rest) =>
    if d = '0' && ds ≠ [] then none
    else
      match rest with
      | '.' :: _ => none
      | 'e' :: _ => none
      | 'E' :: _ => none
      | _ =>
        let n : Int :=
          Int.ofNat ((d :: ds).foldl (fun acc c => acc * 10 + (c.toNat - '0'.toNat)) 0)
        some (if neg then -n else n, rest)

/-- A JSON scalar value: string, integer, `true`, `false` or `null`.
Nested objects and arrays are not modelled (parsing fails). -/
def parseJVal (s : List Char) : Option (JVal × List Char) :=
  match s with
  | '"' :: _ => (parseJString s).map (fun p => (JVal.str p.1, p.2))
  | _ =>
    if "true".data.isPrefixOf s then some (JVal.bool true, s.drop 4)
    else if "false".data.isPrefixOf s then some (JVal.bool false, s.drop 5)
    else if "null".data.isPrefixOf s then some (JVal.null, s.drop 4)
    else (parseJInt s).map (fun p => (JVal.num p.1, p.2))

/-- Members of a JSON object: `"key": value` pairs separated by commas,
terminated by the closing brace; fueled recursion. -/
def parseMembers : Nat → List Char → Option (Frag × List Char)
  | 0, _ => none
  | fuel + 1, s =>
    match parseJString (skipWsJ s) with
    | none => none
    | some (k, s1) =>
      match skipWsJ s1 with
      | ':' :: s2 =>
        match parseJVal (skipWsJ s2) with
        | none => none
        | some (v, s3) =>
          match skipWsJ s3 with
          | ',' :: s4 => (parseMembers fuel s4).map (fun p => ((k, v) :: p.1, p.2))
          | c :: s5 => if c = rbrace then some ([(k, v)], s5) else none
          | [] => none
      | _ => none

/-- Partial executable model of the Python stdlib `json.loads` restricted to
flat objects with string keys and scalar values; it returns `none` wherever
it does not model the input, so every `some` it produces agrees with
`json.loads`.  Used to instantiate the `loads` parameter of `interpret` in
concrete theorems. -/
def pyLoadsObj (s : List Char) : Option Frag :=
  match skipWsJ s with
  | [] => none
  | c :: s1 =>
    if c = lbrace then
      match skipWsJ s1 with
      | [] => none
      | c2 :: s2 =>
        if c2 = rbrace then (if (skipWsJ s2).isEmpty then some [] else none)
        else
          match parseMembers (s1.length + 1) (c2 :: s2) with
          | some (f, rest) => if (skipWsJ rest).isEmpty then some f else none
          | none => none
    else none

/-- Message of the 401 branch (line 214). -/
def msg401 : String := "抽奖接口返回 401，疑似未登录或 Cookie 失效。"

/-- The Cloudflare challenge-page marker looked for in the 403 branch
(line 217). -/
def challengeMarker : List Char := "Just a moment".data

/-- Message of the 403 branch when the preview shows the challenge marker
(line 218). -/
def hintChallenge : String := "抽奖接口返回 403（Cloudflare 挑战），请更新 LUCKYDRAW_COOKIE/Next-Action 参数。"

/-- Message of the 403 branch otherwise (line 220). -/
def hintGeneric : String := "抽奖接口返回 403，可能 Cookie 或 next-action 参数已过期。"

/-- Message of the ≥ 500 branch (line 223). -/
def msg5xx (status : Nat) : List Char :=
  "抽奖接口服务器错误：HTTP ".data ++ (toString status).data

/-- The Python substring test `needle in hay`. -/
def containsSub (needle : List Char) : List Char → Bool
  | [] => needle.isEmpty
  | c :: s => needle.isPrefixOf (c :: s) || containsSub needle s

/-- Key `"status"` of the auxiliary dicts returned by the error branches. -/
def keyStatus : List Char := "status".data

/-- Key `"preview"` of the auxiliary dict returned by the 403 branch. -/
def keyPreview : List Char := "preview".data

/-- The status-code policy of `luckydraw_once` (lines 213-263): 401 and 403
and ≥ 500 short-circuit with a `none` code and a diagnostic message (the 403
branch inspects only the first 200 characters of the body, `r.text[:200]`);
every other status hands the body to the response interpreter.  The
network-exception branch (line 210) is outside the embedding. -/
def luckydraw_classify (loads : List Char → Option Frag)
    (unescape : List Char → List Char) (status : Nat) (body : List Char) :
    Option (List Char) × List Char × Frag :=
  if status = 401 then
    (none, msg401.data, [(keyStatus, JVal.num (Int.ofNat status))])
  else if status = 403 then
    let preview := body.take 200
    (none,
     (if containsSub challengeMarker preview then hintChallenge.data else hintGeneric.data),
     [(keyStatus, JVal.num (Int.ofNat status)), (keyPreview, JVal.str preview)])
  else if 500 ≤ status then
    (none, msg5xx status, [(keyStatus, JVal.num (Int.ofNat status))])
  else
    interpret loads unescape body status

/-- The persisted per-day state, `state["days"]` flattened to an association
list from day key to the stored `tries` counter (the only data the program
reads or writes). -/
def StateMap : Type := List (String × Int)

instance : DecidableEq StateMap := by
  unfold StateMap
  infer_instance

/-- `get_today_counts` (lines 104-105): the stored counter for the day, with
every missing level defaulting to 0. -/
def get_today_counts (st : StateMap) (day : String) : Int :=
  match st.find? (fun p => p.1 == day) with
  | some p => p.2
  | none => 0

/-- Replace the day's binding (or append a fresh one), as
`days.setdefault(...)` followed by the `d["tries"] = ...` assignment does. -/
def updateTries : StateMap → String → Int → StateMap
  | [], day, n => [(day, n)]
  | (k, v) :: rest, day, n =>
    if k = day then (day, n) :: rest else (k, v) :: updateTries rest day n

/-- `bump_today_count` (lines 108-112) without its `save_state` call: the
counter of the day becomes its current value plus `inc`. -/
def bump_today_count (st : StateMap) (day : String) (inc : Int) : StateMap :=
  updateTries st day (get_today_counts st day + inc)

/-- The state file on disk: absent, unreadable/undecodable, or holding a
serialized state. -/
inductive FileContent where
  | missing
  | malformed
  | valid (st : StateMap)
deriving DecidableEq

/-- `load_state` (lines 88-92): any failure to read or parse the file yields
the empty mapping (`except Exception: return` empty dict). -/
def load_state : FileContent → StateMap
  | FileContent.valid s => s
  | _ => []

/-- `save_state` (lines 95-97): the file now holds the given state. -/
def save_state (st : StateMap) : FileContent := FileContent.valid st

/-- The value stored in a record's `topup_amount` field: a Python `int`
instance (Python `bool`s are `int` instances and subsumed here), the empty
string standing for "no amount", or any other non-`int` JSON value
(e.g. a float or a string). -/
inductive PyAmt where
  | intVal (n : Int)
  | emptyStr
  | nonIntVal
deriving DecidableEq

/-- One attempt's external outcomes: what `luckydraw_once` returned
(`code`, `draw_msg`) and what `topup_once` would return if called
(`topup_ok`, `topup_msg`, `topup_data`, the `data` field of the top-up
response, `none` when absent). -/
structure Env where
  code : Option String
  draw_msg : String
  topup_ok : Bool
  topup_msg : String
  topup_data : Option PyAmt
deriving DecidableEq

/-- One attempt's record (lines 424-446). -/
structure Record where
  draw_msg : String
  code : String
  code_mask : String
  topup_ok : Bool
  topup_amount : PyAmt
  topup_msg : String
deriving DecidableEq

/-- Fixed message when a draw yields no code and no message (line 443). -/
def noCodeMsg : String := "未获取到兑换码"

/-- Building one attempt's record (lines 424-446): a truthy code fills the
top-up fields from `topup_once`; otherwise the defaults remain and the draw
failure reason lands in `topup_msg`. -/
def makeRecord (e : Env) : Record :=
  let c := (e.code).getD ""
  if c = "" then
    { draw_msg := e.draw_msg
      code := ""
      code_mask := ""
      topup_ok := false
      topup_amount := PyAmt.emptyStr
      topup_msg :=
        if e.draw_msg = "" then noCodeMsg
        else noCodeMsg ++ "（" ++ e.draw_msg ++ "）" }
  else
    { draw_msg := e.draw_msg
      code := c
      code_mask := mask_code c
      topup_ok := e.topup_ok
      topup_amount := (e.topup_data).getD PyAmt.emptyStr
      topup_msg := e.topup_msg }

/-- The attempt loop of `main` (lines 414-448), `n` iterations starting at
loop index `i`: each iteration draws (outcome supplied by the oracle `env`),
bumps and persists the daily counter regardless of the outcome, and appends
the attempt's record.  Returns the records, the final in-memory state and
the final file content. -/
def runN (env : Nat → Env) (today : String) :
    Nat → Nat → StateMap → FileContent → List Record × StateMap × FileContent
  | _, 0, st, file => ([], st, file)
  | i, n + 1, st, _ =>
    let st1 := bump_today_count st today 1
    let rest := runN env today (i + 1) n st1 (save_state st1)
    (makeRecord (env i) :: rest.1, rest.2.1, rest.2.2)

/-- `total_amount` (line 451): sum of the `topup_amount` fields that are
Python `int` instances, each taken as-is by `int(...)`. -/
def total_amount (rs : List Record) : Int :=
  (rs.filterMap (fun r =>
    match r.topup_amount with
    | PyAmt.intVal n => some n
    | _ => none)).sum

/-- The run summary (lines 454-461); the `date` / `timezone` strings are
wall-clock constants outside the embedding. -/
structure Summary where
  total_amount : Int
  items : List Record
  today_tried : Int
  today_target : Int
deriving DecidableEq

/-- `has_success` (line 467): some record has a truthy `topup_ok` or a
truthy (nonempty) `code`. -/
def has_success (rs : List Record) : Bool :=
  rs.any (fun r => r.topup_ok || !(r.code == ""))

/-- Everything one run produces. -/
structure RunResult where
  results : List Record
  state : StateMap
  file : FileContent
  summary : Summary
  notify : Bool
deriving DecidableEq

/-- The run controller `main` (lines 387-480) after configuration checks:
load the state, clamp the configured maximum to 5 (line 406), run the
remaining attempts, aggregate the summary, and decide whether `send_push`
is invoked (lines 467-470: skipped when there are no results or none has a
code or successful top-up). -/
def runMain (dailyMax : Int) (env : Nat → Env) (today : String)
    (file0 : FileContent) : RunResult :=
  let st0 := load_state file0
  let already := get_today_counts st0 today
  let target := min dailyMax 5
  let need := (max 0 (target - already)).toNat
  let (rs, st1, f1) := runN env today 0 need st0 file0
  let summary : Summary :=
    { total_amount := total_amount rs
      items := rs
      today_tried := get_today_counts st1 today
      today_target := target }
  { results := rs
    state := st1
    file := f1
    summary := summary
    notify := !rs.isEmpty && has_success rs }

/-! ### Helper lemmas -/

theorem takeWhile_all_append {p : Char → Bool} :
    ∀ {h : List Char} {q : Char} {t : List Char}, (∀ c ∈ h, p c = true) → p q = false →
      (h ++ q :: t).takeWhile p = h ∧ (h ++ q :: t).dropWhile p = q :: t := by
  intro h
  induction h with
  | nil =>
    intro q t _ hq
    simp [List.takeWhile, List.dropWhile, hq]
  | cons a h2 ih =>
    intro q t hall hq
    have ha : p a = true := hall a (by simp)
    have hrec := @ih q t (fun c hc => hall c (by simp [hc])) hq
    simp [List.takeWhile, List.dropWhile, ha, hrec.1, hrec.2]

theorem isPrefixOf_append_self :
    ∀ (a b : List Char), a.isPrefixOf (a ++ b) = true := by
  intro a
  induction a with
  | nil => intro b; cases b <;> rfl
  | cons c t ih => intro b; simp [List.isPrefixOf, ih b]

theorem take_len_append (a b : List Char) (n : Nat) (h : a.length = n) :
    (a ++ b).take n = a := by
  subst h
  exact List.take_left a b

theorem drop_len_append (a b : List Char) (n : Nat) (h : a.length = n) :
    (a ++ b).drop n = b := by
  subst h
  exact List.drop_left a b

/-! ### C6: totalAmount sums exactly the present integral amounts -/

/-- The spec's description of the aggregate: every record contributes its
`redeemedAmount` when present and integral, and zero otherwise. -/
def specTotal (rs : List Record) : Int :=
  (rs.map (fun r =>
    match r.topup_amount with
    | PyAmt.intVal n => n
    | _ => 0)).sum

/-- C6: for every sequence of attempt records, `totalAmount` (the source's
filtered sum over the records whose `topup_amount` is a Python `int`
instance) equals the sum in which present-and-integral amounts contribute
their value and absent or non-integral amounts contribute zero — absent and
non-integral values are excluded from the sum, never coerced. -/
theorem C6_total_amount (rs : List Record) : total_amount rs = specTotal rs := by
  induction rs with
  | nil => rfl
  | cons r t ih =>
    unfold total_amount specTotal at ih ⊢
    cases ha : r.topup_amount <;>
      simp [List.filterMap_cons, ha, ih]

/-! ### C7: the masking rule -/

/-- C7: codes shorter than 8 characters (the empty string included) mask to
the fixed placeholder `****`; for codes of length at least 8 the masked form
has exactly 12 characters: the code's first 4, then the fixed mask `****`,
then the code's last 4. -/
theorem C7_mask_spec (code : String) :
    (code.length < 8 → mask_code code = "****") ∧
    (8 ≤ code.length →
      (mask_code code).length = 12 ∧
      (mask_code code).data.take 4 = code.data.take 4 ∧
      ((mask_code code).data.drop 4).take 4 = "****".data ∧
      (mask_code code).data.drop 8 = code.data.drop (code.data.length - 4)) := by
  constructor
  · intro h
    unfold mask_code
    rw [if_pos]
    simp [h]
  · intro h
    have hlen : code.data.length = code.length := rfl
    have hno : ¬((code = "" || code.length < 8) = true) := by
      simp only [Bool.or_eq_true, decide_eq_true_eq, not_or, not_lt]
      constructor
      · intro he
        rw [he] at h
        exact absurd h (by decide)
      · omega
    have h4 : (code.data.take 4).length = 4 := by
      rw [List.length_take]
      omega
    have h44 : (code.data.take 4 ++ "****".data).length = 8 := by
      rw [List.length_append, h4]
      rfl
    unfold mask_code
    rw [if_neg hno]
    refine ⟨?_, ?_, ?_, ?_⟩
    · show (code.data.take 4 ++ "****".data ++ code.data.drop (code.data.length - 4)).length = 12
      simp only [List.length_append, h4, List.length_drop, List.length_cons, List.length_nil]
      omega
    · show (code.data.take 4 ++ "****".data ++ code.data.drop (code.data.length - 4)).take 4
        = code.data.take 4
      rw [List.append_assoc]
      exact take_len_append _ _ 4 h4
    · show ((code.data.take 4 ++ "****".data ++ code.data.drop (code.data.length - 4)).drop 4).take 4
        = "****".data
      rw [List.append_assoc, drop_len_append _ _ 4 h4]
      exact take_len_append _ _ 4 rfl
    · show (code.data.take 4 ++ "****".data ++ code.data.drop (code.data.length - 4)).drop 8
        = code.data.drop (code.data.length - 4)
      exact drop_len_append _ _ 8 h44

/-- Witness for C7 at the concrete codes `"abc"` (short branch) and
`"abcdefghij"` (long branch). -/
theorem C7_mask_spec_witness :
    mask_code "abc" = "****" ∧
    (mask_code "abcdefghij").data.take 4 = "abcdefghij".data.take 4 := by
  refine ⟨(C7_mask_spec "abc").1 (by decide), ?_⟩
  exact ((C7_mask_spec "abcdefghij").2 (by decide)).2.1

/-! ### C1: the end-to-end draw-body scenario -/

/-- The scenario body
`garbage{"message":"try later"}moregarbage{"redemptionCode":"0123456789abcdef","message":"win"}`
(braces written via `\x7b`/`\x7d`). -/
def c1body : List Char :=
  "garbage\x7b\"message\":\"try later\"\x7dmoregarbage\x7b\"redemptionCode\":\"0123456789abcdef\",\"message\":\"win\"\x7d".data

/-- C1 counterexample: on the scenario body the interpreter does return the
code `0123456789abcdef`, but its message is `"try later"`, not `"win"`: the
`"message"` regex of line 240 takes the leftmost match, and the
parsed-fragment fallback of line 256 runs only when the regex found no
message at all.  (`html.unescape` is instantiated with the identity, which
is faithful here because the body contains no `&`; `json.loads` is
instantiated with the partial model `pyLoadsObj`, which parses the final
fragment exactly as `json.loads` does — and the message is independent of
the `loads` outcome anyway, since the regex already succeeded.) -/
theorem C1_counterexample :
    (interpret pyLoadsObj id c1body 200).1 = some "0123456789abcdef".data ∧
    (interpret pyLoadsObj id c1body 200).2.1 = "try later".data ∧
    "try later".data ≠ "win".data := by
  refine ⟨by decide, by decide, by decide⟩

/-- C1 amended: on the scenario body the interpreter returns the code
`0123456789abcdef` and the message `"try later"` — the first complete
`"message":"..."` occurrence in the stream wins, while the last complete
JSON fragment is still the one parsed into the returned fragment dict (the
fragment fallback would supply `"win"` only if no regex match had
succeeded). -/
theorem C1_first_message_wins :
    interpret pyLoadsObj id c1body 200 =
      (some "0123456789abcdef".data, "try later".data,
       [(keyRCname, JVal.str "0123456789abcdef".data),
        (keyMsgName, JVal.str "win".data)]) := by
  decide

/-! ### C4: code extraction tolerates surrounding garbage -/

/-- The well-formed payload field `"redemptionCode":"<h>"` (as a character
list). -/
def rcField (h : List Char) : List Char := keyRC ++ ':' :: '"' :: (h ++ ['"'])

theorem dropWs_cons_nonspace {c : Char} (hc : isPySpace c = false) (s : List Char) :
    dropWs (c :: s) = c :: s := by
  simp [dropWs, List.dropWhile, hc]

theorem expectChar_self (c : Char) (s : List Char) : expectChar c (c :: s) = some s := by
  simp [expectChar]

theorem matchCodeAt_rcField {h post : List Char}
    (hhex : ∀ c ∈ h, isHexChar c = true) (hlen : 16 ≤ h.length) :
    matchCodeAt (rcField h ++ post) = some h := by
  have hsplit : rcField h ++ post = keyRC ++ (':' :: '"' :: (h ++ '"' :: post)) := by
    simp [rcField]
  have htw := takeWhile_all_append (h := h) (q := '"') (t := post) hhex (by decide)
  have h1 : isPySpace ':' = false := by decide
  have h2 : isPySpace '"' = false := by decide
  rw [hsplit]
  simp only [matchCodeAt, isPrefixOf_append_self, eq_self_iff_true, if_true,
    List.drop_left, dropWs_cons_nonspace h1, dropWs_cons_nonspace h2,
    expectChar_self, htw.1, htw.2]
  rw [if_pos hlen]

theorem matchCodeAt_none_of_no_key {s : List Char}
    (hk : keyRC.isPrefixOf s = false) : matchCodeAt s = none := by
  simp [matchCodeAt, hk]

theorem findRC_of_first {s : List Char} {h : List Char} :
    ∀ {pre : List Char},
      (∀ i, i < pre.length → keyRC.isPrefixOf (List.drop i (pre ++ s)) = false) →
      matchCodeAt s = some h →
      findRedemptionCode (pre ++ s) = some h := by
  intro pre
  induction pre with
  | nil =>
    intro _ hm
    cases s with
    | nil =>
      rw [(by decide : matchCodeAt ([] : List Char) = none)] at hm
      exact Option.noConfusion hm
    | cons a t =>
      simp only [List.nil_append]
      unfold findRedemptionCode
      rw [hm]
  | cons a pre2 ih =>
    intro hnp hm
    have h0 : keyRC.isPrefixOf (a :: (pre2 ++ s)) = false := by
      have := hnp 0 (by simp)
      simpa using this
    simp only [List.cons_append]
    unfold findRedemptionCode
    rw [matchCodeAt_none_of_no_key h0]
    exact ih (fun i hi => by
      have := hnp (i + 1) (by simp only [List.length_cons]; omega)
      simpa using this) hm

/-- C4: whenever the payload is any garbage prefix, then a well-formed field
`"redemptionCode":"<hex string of length ≥ 16>"`, then any garbage suffix —
with the prefix not containing a (possibly boundary-straddling) occurrence
of the literal `"redemptionCode"`, which pins down "that" field as the one
the leftmost-match regex sees first — the interpreter's returned code is
exactly that hex string, for every JSON-parser and unescaper instantiation
and every delegated HTTP status. -/
theorem C4_code_extraction (loads : List Char → Option Frag)
    (unescape : List Char → List Char) (pre post h : List Char) (status : Nat)
    (hhex : ∀ c ∈ h, isHexChar c = true) (hlen : 16 ≤ h.length)
    (hfirst : ∀ i, i < pre.length →
      keyRC.isPrefixOf (List.drop i (pre ++ (rcField h ++ post))) = false) :
    (interpret loads unescape (pre ++ (rcField h ++ post)) status).1 = some h := by
  have hfind : findRedemptionCode (pre ++ (rcField h ++ post)) = some h :=
    findRC_of_first hfirst (matchCodeAt_rcField hhex hlen)
  have hne : h.isEmpty = false := by
    cases h with
    | nil => simp at hlen
    | cons c t => rfl
  unfold interpret
  simp only [hfind, truthyOpt, hne, Bool.not_false, Bool.not_true, Bool.false_and,
    Bool.false_eq_true, if_false]

/-- Witness for C4: the field embedded between concrete garbage. -/
theorem C4_code_extraction_witness :
    (∀ c ∈ "0123456789abcdef".data, isHexChar c = true) ∧
    16 ≤ "0123456789abcdef".data.length ∧
    (∀ i, i < ("garbage!xx".data).length →
      keyRC.isPrefixOf (List.drop i ("garbage!xx".data ++
        (rcField "0123456789abcdef".data ++ "\x7dtail".data))) = false) ∧
    (interpret pyLoadsObj id
      ("garbage!xx".data ++ (rcField "0123456789abcdef".data ++ "\x7dtail".data)) 200).1 =
      some "0123456789abcdef".data := by
  refine ⟨by decide, by decide, by decide, ?_⟩
  exact C4_code_extraction pyLoadsObj id _ _ _ 200 (by decide) (by decide) (by decide)

/-! ### C9: the status-code policy of drawOnce -/

/-- C9 amended, as the code implements it: 401 yields no code and the
unauthenticated message; 403 yields no code and the message distinguishes a
bot challenge from generic expired credentials according to whether the
FIRST 200 CHARACTERS of the body contain the challenge marker; status ≥ 500
yields no code and the server-error message; every other status delegates
the body to the response interpreter. -/
theorem C9_status_policy (loads : List Char → Option Frag)
    (unescape : List Char → List Char) (status : Nat) (body : List Char) :
    (status = 401 → luckydraw_classify loads unescape status body =
      (none, msg401.data, [(keyStatus, JVal.num 401)])) ∧
    (status = 403 → luckydraw_classify loads unescape status body =
      (none,
       (if containsSub challengeMarker (body.take 200) then hintChallenge.data
        else hintGeneric.data),
       [(keyStatus, JVal.num 403), (keyPreview, JVal.str (body.take 200))])) ∧
    (500 ≤ status → luckydraw_classify loads unescape status body =
      (none, msg5xx status, [(keyStatus, JVal.num (Int.ofNat status))])) ∧
    (status ≠ 401 → status ≠ 403 → status < 500 →
      luckydraw_classify loads unescape status body = interpret loads unescape body status) := by
  refine ⟨?_, ?_, ?_, ?_⟩
  · intro hs
    subst hs
    rfl
  · intro hs
    subst hs
    rfl
  · intro hs
    unfold luckydraw_classify
    rw [if_neg (by omega), if_neg (by omega), if_pos hs]
  · intro h1 h2 h3
    unfold luckydraw_classify
    rw [if_neg h1, if_neg h2, if_neg (by omega)]

/-- Witness for C9 at concrete statuses 401 (first clause), 502 (server
error clause) and 404 (delegation clause). -/
theorem C9_status_policy_witness :
    luckydraw_classify pyLoadsObj id 401 [] = (none, msg401.data, [(keyStatus, JVal.num 401)]) ∧
    luckydraw_classify pyLoadsObj id 502 [] =
      (none, msg5xx 502, [(keyStatus, JVal.num (Int.ofNat 502))]) ∧
    luckydraw_classify pyLoadsObj id 404 [] = interpret pyLoadsObj id [] 404 :=
  ⟨(C9_status_policy pyLoadsObj id 401 []).1 rfl,
   (C9_status_policy pyLoadsObj id 502 []).2.2.1 (by omega),
   (C9_status_policy pyLoadsObj id 404 []).2.2.2 (by omega) (by omega) (by omega)⟩

/-- A 403 body whose challenge marker sits entirely beyond the first 200
characters. -/
def body403 : List Char := List.replicate 200 'x' ++ challengeMarker

/-- C9 counterexample: this 403 response body does contain the challenge
marker, yet the message is the generic expired-credentials hint, not the
bot-challenge one — the code inspects only `r.text[:200]` (line 216). -/
theorem C9_counterexample :
    containsSub challengeMarker body403 = true ∧
    (luckydraw_classify pyLoadsObj id 403 body403).2.1 = hintGeneric.data ∧
    hintGeneric.data ≠ hintChallenge.data := by
  refine ⟨by decide, by decide, by decide⟩

/-! ### State-store and run-loop lemmas -/

theorem get_updateTries (st : StateMap) (day : String) (n : Int) :
    get_today_counts (updateTries st day n) day = n := by
  induction st with
  | nil => simp [updateTries, get_today_counts, List.find?]
  | cons p rest ih =>
    cases p with
    | mk k v =>
      by_cases hk : k = day
      · subst hk
        simp [updateTries, get_today_counts, List.find?]
      · simp only [updateTries, if_neg hk]
        unfold get_today_counts at ih ⊢
        simp only [List.find?]
        have hb : ((k, v).1 == day) = false := by simp [hk]
        rw [hb]
        exact ih

theorem get_bump (st : StateMap) (day : String) (i : Int) :
    get_today_counts (bump_today_count st day i) day = get_today_counts st day + i :=
  get_updateTries st day _

theorem runN_length (env : Nat → Env) (today : String) :
    ∀ (n i : Nat) (st : StateMap) (f : FileContent),
      ((runN env today i n st f).1).length = n := by
  intro n
  induction n with
  | zero => intro i st f; rfl
  | succ m ih =>
    intro i st f
    simp only [runN, List.length_cons]
    rw [ih]

theorem runN_counts (env : Nat → Env) (today : String) :
    ∀ (n i : Nat) (st : StateMap) (f : FileContent),
      get_today_counts (runN env today i n st f).2.1 today
        = get_today_counts st today + n := by
  intro n
  induction n with
  | zero => intro i st f; simp [runN]
  | succ m ih =>
    intro i st f
    simp only [runN]
    rw [ih, get_bump]
    push_cast
    ring

theorem runN_file (env : Nat → Env) (today : String) :
    ∀ (n i : Nat) (st : StateMap) (f : FileContent), 1 ≤ n →
      (runN env today i n st f).2.2 = save_state (runN env today i n st f).2.1 := by
  intro n
  induction n with
  | zero => intro i st f h; exact absurd h (by omega)
  | succ m ih =>
    intro i st f _
    cases m with
    | zero => rfl
    | succ k =>
      simp only [runN]
      exact ih (i + 1) (bump_today_count st today 1)
        (save_state (bump_today_count st today 1)) (by omega)

/-! ### C5: the daily counter is bumped and persisted per attempt -/

/-- C5: a loop of `k` attempts starting from in-memory counter `c` (for the
day being run) ends with counter `c + k` whatever each attempt's outcome;
as soon as at least one attempt ran, the state file holds exactly the final
state, so reloading it yields the same `c + k`; and the counter after `j ≤ k`
attempts never exceeds the counter after `k`, i.e. it never decreases within
the day. -/
theorem C5_counter_persistence (env : Nat → Env) (today : String) (k i : Nat)
    (st : StateMap) (f0 : FileContent) :
    get_today_counts (runN env today i k st f0).2.1 today
      = get_today_counts st today + k ∧
    (1 ≤ k →
      load_state (runN env today i k st f0).2.2 = (runN env today i k st f0).2.1 ∧
      get_today_counts (load_state (runN env today i k st f0).2.2) today
        = get_today_counts st today + k) ∧
    (∀ j, j ≤ k →
      get_today_counts (runN env today i j st f0).2.1 today
        ≤ get_today_counts (runN env today i k st f0).2.1 today) := by
  refine ⟨runN_counts env today k i st f0, ?_, ?_⟩
  · intro hk
    rw [runN_file env today k i st f0 hk]
    exact ⟨rfl, runN_counts env today k i st f0⟩
  · intro j hj
    rw [runN_counts, runN_counts]
    omega

/-- A draw oracle whose every attempt fails to produce a code. -/
def env0 : Nat → Env :=
  fun _ => { code := none, draw_msg := "m", topup_ok := false, topup_msg := "", topup_data := none }

/-- Witness for C5 with two attempts from the empty state. -/
theorem C5_counter_persistence_witness :
    get_today_counts (runN env0 "d" 0 2 [] FileContent.missing).2.1 "d"
      = get_today_counts ([] : StateMap) "d" + (2 : Nat) ∧
    load_state (runN env0 "d" 0 2 [] FileContent.missing).2.2
      = (runN env0 "d" 0 2 [] FileContent.missing).2.1 ∧
    get_today_counts (runN env0 "d" 0 1 [] FileContent.missing).2.1 "d"
      ≤ get_today_counts (runN env0 "d" 0 2 [] FileContent.missing).2.1 "d" :=
  ⟨(C5_counter_persistence env0 "d" 2 0 [] FileContent.missing).1,
   ((C5_counter_persistence env0 "d" 2 0 [] FileContent.missing).2.1 (by omega)).1,
   (C5_counter_persistence env0 "d" 2 0 [] FileContent.missing).2.2 1 (by omega)⟩

/-! ### C2: the attempt budget -/

/-- C2 amended: one run performs exactly
`max(0, min(dailyMax, 5) - attemptsToday)` draw attempts — the configured
daily maximum is clamped to 5 by `target = min(MAX_TIMES, 5)` — with no
early exit; when `attemptsToday ≥ min(dailyMax, 5)` the run performs zero
attempts and still produces the valid empty summary. -/
theorem C2_attempt_budget (dailyMax : Int) (env : Nat → Env) (today : String)
    (f0 : FileContent) :
    (runMain dailyMax env today f0).results.length
      = (max 0 (min dailyMax 5 - get_today_counts (load_state f0) today)).toNat ∧
    (min dailyMax 5 ≤ get_today_counts (load_state f0) today →
      (runMain dailyMax env today f0).results = [] ∧
      (runMain dailyMax env today f0).summary =
        { total_amount := 0, items := [],
          today_tried := get_today_counts (load_state f0) today,
          today_target := min dailyMax 5 }) := by
  constructor
  · exact runN_length env today _ 0 _ f0
  · intro hle
    have hzero : (max 0 (min dailyMax 5 - get_today_counts (load_state f0) today)).toNat
        = 0 := by omega
    unfold runMain
    simp only [hzero, runN]
    exact ⟨trivial, rfl⟩

/-- C2 counterexample: with `MAX_TIMES = 10` and a fresh day the run
performs 5 attempts, not the `max(0, 10 - 0) = 10` the claim requires. -/
theorem C2_counterexample :
    (runMain 10 env0 "2026-01-01" (FileContent.valid [])).results.length = 5 ∧
    get_today_counts (load_state (FileContent.valid [])) "2026-01-01" = 0 ∧
    (max 0 ((10 : Int) - 0)).toNat = 10 ∧
    (5 : Nat) ≠ 10 := by
  refine ⟨by decide, rfl, by decide, by decide⟩

/-- Witness for C2: a day whose stored counter 7 already exceeds the
clamped target 5 yields zero attempts and the empty summary. -/
theorem C2_attempt_budget_witness :
    (runMain 5 env0 "2026-01-01" (FileContent.valid [("2026-01-01", 7)])).results = [] ∧
    (runMain 5 env0 "2026-01-01" (FileContent.valid [("2026-01-01", 7)])).summary =
      { total_amount := 0, items := [],
        today_tried :=
          get_today_counts (load_state (FileContent.valid [("2026-01-01", 7)])) "2026-01-01",
        today_target := min 5 5 } :=
  (C2_attempt_budget 5 env0 "2026-01-01" (FileContent.valid [("2026-01-01", 7)])).2
    (by decide)

/-! ### C10: a corrupt state store never aborts the run -/

/-- C10: a missing or malformed state file loads as the empty mapping, so
today's counter reads 0 and the run proceeds with the full clamped daily
quota; `load_state` and the run are total, so the corrupt store never
aborts the run. -/
theorem C10_corrupt_state (fc : FileContent) (dailyMax : Int) (env : Nat → Env)
    (today : String)
    (h : fc = FileContent.missing ∨ fc = FileContent.malformed) :
    load_state fc = [] ∧
    get_today_counts (load_state fc) today = 0 ∧
    (runMain dailyMax env today fc).results.length = (max 0 (min dailyMax 5)).toNat := by
  have hl : load_state fc = [] := by
    obtain rfl | rfl := h <;> rfl
  refine ⟨hl, by rw [hl]; rfl, ?_⟩
  unfold runMain
  rw [hl]
  have h0 : get_today_counts ([] : StateMap) today = 0 := rfl
  simp only [h0, sub_zero]
  exact runN_length env today _ 0 _ fc

/-- Witness for C10 at the malformed file. -/
theorem C10_corrupt_state_witness :
    load_state FileContent.malformed = [] ∧
    (runMain 5 env0 "2026-01-01" FileContent.malformed).results.length
      = (max 0 (min (5 : Int) 5)).toNat :=
  ⟨(C10_corrupt_state FileContent.malformed 5 env0 "2026-01-01" (Or.inr rfl)).1,
   (C10_corrupt_state FileContent.malformed 5 env0 "2026-01-01" (Or.inr rfl)).2.2⟩

/-! ### C8: when the notification is skipped -/

theorem notify_gate_true (rs : List Record) :
    (!rs.isEmpty && has_success rs) = true ↔
      ∃ r ∈ rs, r.code ≠ "" ∨ r.topup_ok = true := by
  simp only [has_success, Bool.and_eq_true, List.any_eq_true, Bool.or_eq_true,
    Bool.not_eq_true', List.isEmpty_eq_false_iff_exists_mem, bne_iff_ne, ne_eq,
    beq_eq_false_iff_ne]
  constructor
  · rintro ⟨_, r, hm, hp⟩
    exact ⟨r, hm, hp.symm⟩
  · rintro ⟨r, hm, hp⟩
    exact ⟨⟨r, hm⟩, r, hm, hp.symm⟩

theorem not_exists_iff_empty_or_all {P : Record → Prop} (rs : List Record) :
    (¬ ∃ r ∈ rs, P r) ↔ (rs = [] ∨ ∀ r ∈ rs, ¬ P r) := by
  constructor
  · intro h
    right
    intro r hm hp
    exact h ⟨r, hm, hp⟩
  · rintro (rfl | hall) ⟨r, hm, hp⟩
    · simp at hm
    · exact hall r hm hp

/-- C8: `send_push` is invoked by the run controller exactly when some
attempt record carries a (nonempty) redemption code or a successful top-up;
equivalently the notification is skipped entirely exactly when the record
sequence is empty or no record has either. -/
theorem C8_notification_gate (dailyMax : Int) (env : Nat → Env) (today : String)
    (f0 : FileContent) :
    ((runMain dailyMax env today f0).notify = true ↔
      ∃ r ∈ (runMain dailyMax env today f0).results, r.code ≠ "" ∨ r.topup_ok = true) ∧
    ((runMain dailyMax env today f0).notify = false ↔
      ((runMain dailyMax env today f0).results = [] ∨
        ∀ r ∈ (runMain dailyMax env today f0).results,
          r.code = "" ∧ r.topup_ok = false)) := by
  have hn : (runMain dailyMax env today f0).notify
      = (!(runMain dailyMax env today f0).results.isEmpty
          && has_success (runMain dailyMax env today f0).results) := rfl
  constructor
  · rw [hn]
    exact notify_gate_true _
  · have hbf : ((runMain dailyMax env today f0).notify = false)
        ↔ ¬((runMain dailyMax env today f0).notify = true) := by
      cases (runMain dailyMax env today f0).notify <;> simp
    rw [hbf, hn, notify_gate_true, not_exists_iff_empty_or_all]
    simp only [not_or, ne_eq, not_not, Bool.not_eq_true]

/-! ### C3: code masking in the output artifacts -/

theorem makeRecord_mask (e : Env) :
    (makeRecord e).code_mask
      = (if (makeRecord e).code = "" then "" else mask_code (makeRecord e).code) := by
  unfold makeRecord
  by_cases hc : (e.code).getD "" = ""
  · rw [if_pos hc]
    simp
  · rw [if_neg hc]
    simp [hc]

theorem mem_runN_records (env : Nat → Env) (today : String) :
    ∀ (n i : Nat) (st : StateMap) (f : FileContent) (r : Record),
      r ∈ (runN env today i n st f).1 → ∃ j, r = makeRecord (env j) := by
  intro n
  induction n with
  | zero => intro i st f r h; simp [runN] at h
  | succ m ih =>
    intro i st f r h
    simp only [runN, List.mem_cons] at h
    rcases h with rfl | h
    · exact ⟨i, rfl⟩
    · exact ih (i + 1) _ _ r h

theorem mask_code_long (code : String) (h : 8 ≤ code.length) :
    (mask_code code).data
      = code.data.take 4 ++ "****".data ++ code.data.drop (code.data.length - 4) := by
  have hno : ¬((code = "" || code.length < 8) = true) := by
    simp only [Bool.or_eq_true, decide_eq_true_eq, not_or, not_lt]
    refine ⟨fun he => ?_, by omega⟩
    rw [he] at h
    exact absurd h (by decide)
  unfold mask_code
  rw [if_neg hno]

theorem code_not_infix_mask (code : String) (h8 : 8 ≤ code.length)
    (hhex : ∀ c ∈ code.data, isHexChar c = true) :
    ¬ ∃ p s, p ++ code.data ++ s = (mask_code code).data := by
  rintro ⟨p, s, heq⟩
  rw [mask_code_long code h8] at heq
  have hlen : code.data.length = code.length := rfl
  have h4 : (code.data.take 4).length = 4 := by
    rw [List.length_take]
    omega
  have hm4 : ("****".data).length = 4 := rfl
  have hd4 : (code.data.drop (code.data.length - 4)).length = 4 := by
    rw [List.length_drop]
    omega
  have hple : p.length ≤ 4 := by
    have hl := congrArg List.length heq
    simp only [List.length_append, h4, hm4, hd4] at hl
    omega
  have hstar : (code.data.take 4 ++ "****".data
      ++ code.data.drop (code.data.length - 4))[4]? = some '*' := by
    rw [List.append_assoc]
    rw [List.getElem?_append_right (by omega : (code.data.take 4).length ≤ 4)]
    rw [h4]
    rfl
  have hstar2 : (p ++ code.data ++ s)[4]? = some '*' := by
    rw [heq]
    exact hstar
  rw [List.append_assoc] at hstar2
  rw [List.getElem?_append_right hple] at hstar2
  rw [List.getElem?_append] at hstar2
  rw [if_pos (by omega : 4 - p.length < code.data.length)] at hstar2
  have hmem : '*' ∈ code.data := List.getElem?_mem hstar2
  exact absurd (hhex '*' hmem) (by decide)

/-- C3 amended: in every run, every attempt record's display field
`code_mask` is exactly the masked form of its code (empty when there is no
code), and for any hex code of length ≥ 8 the full code never occurs inside
its masked form — so the human-readable report and the notification body,
which render codes only through `code_mask`, never show a code in full.
The machine-readable serialized summary, however, contains the full code in
each item's `code` field (see the counterexample). -/
theorem C3_masked_rendering (dailyMax : Int) (env : Nat → Env) (today : String)
    (f0 : FileContent) (r : Record)
    (hr : r ∈ (runMain dailyMax env today f0).summary.items) :
    r.code_mask = (if r.code = "" then "" else mask_code r.code) ∧
    (8 ≤ r.code.length → (∀ c ∈ r.code.data, isHexChar c = true) →
      ¬ ∃ p s, p ++ r.code.data ++ s = (mask_code r.code).data) := by
  obtain ⟨j, rfl⟩ := mem_runN_records env today _ 0 (load_state f0) f0 r hr
  exact ⟨makeRecord_mask (env j),
    fun h8 hhex => code_not_infix_mask _ h8 hhex⟩

/-- A draw oracle whose every attempt wins the code `0123456789abcdef` and
redeems it for 100. -/
def env1 : Nat → Env :=
  fun _ => { code := some "0123456789abcdef", draw_msg := "恭喜",
             topup_ok := true, topup_msg := "ok",
             topup_data := some (PyAmt.intVal 100) }

/-- C3 counterexample: the serialized summary written to `summary.json`
contains each record in full, including the unmasked `code` field — here
the full 16-character code, which differs from its masked rendering. -/
theorem C3_counterexample :
    ((runMain 5 env1 "2026-01-01"
        (FileContent.valid [("2026-01-01", 4)])).summary.items.map
      (fun r => r.code)) = ["0123456789abcdef"] ∧
    mask_code "0123456789abcdef" = "0123****cdef" ∧
    ("0123456789abcdef" : String) ≠ "0123****cdef" := by
  refine ⟨by decide, by decide, by decide⟩

/-- Witness for C3 at the record produced by the concrete winning run. -/
theorem C3_masked_rendering_witness :
    (makeRecord (env1 0)).code_mask
      = (if (makeRecord (env1 0)).code = "" then ""
         else mask_code (makeRecord (env1 0)).code) ∧
    ¬ ∃ p s, p ++ (makeRecord (env1 0)).code.data ++ s
        = (mask_code (makeRecord (env1 0)).code).data :=
  ⟨(C3_masked_rendering 5 env1 "2026-01-01" (FileContent.valid [("2026-01-01", 4)])
      (makeRecord (env1 0)) (by decide)).1,
   (C3_masked_rendering 5 env1 "2026-01-01" (FileContent.valid [("2026-01-01", 4)])
      (makeRecord (env1 0)) (by decide)).2 (by decide) (by decide)⟩

end AutoCheckin
